import Mathlib

/-!
Verification of the local data store of the fitness-training-manager
repository (src/js/app.js, the id-based variant, which the specification's
"core" describes).

The shallow embedding has two layers.

The first layer models state documents: the persisted/in-memory shape
`{clients, programs, exercises, progress, events, settings}` with every
record field optional (`none` plays the role of an absent / `undefined`
property, exactly as JSON serialization treats it).  Over this layer we
embed `migrateState` (app.js lines 114-145), the mutation handlers of
`setupForms` and `renderClients` (add/delete operations), and the
restore flow at the granularity of well-shaped documents.

The second layer (`JVal`) models arbitrary parsed JSON values together
with the JavaScript evaluation behaviour of the restore click handler
(app.js lines 548-567): property reads that throw on `null`, `.map` /
`.length` calls that throw on non-arrays, sloppy-mode property writes
that are silent no-ops on primitives, and the try/catch that turns any
thrown error into the "Invalid backup file" alert.  This layer is needed
because the restore handler assigns `state = data` before running
`migrateState()`, so a structurally malformed document can clobber the
store even though the failure alert is shown.

Modelling conventions, stated once:
* `generateId` (app.js lines 107-112) draws from a deterministic supply
  (a natural-number counter threaded through the functions); the only
  property of generated ids the program relies on is that they are
  non-empty (truthy) strings.
* JSON objects are modelled with unique keys, as `JSON.parse` yields
  after last-key-wins collapsing.
* Named-property assignment on an array value is modelled as a no-op
  (such properties are invisible to JSON serialization); no claim or
  counterexample below involves a client that is itself an array.
-/

/-- JavaScript truthiness of a possibly-absent string value:
`undefined`/absent and the empty string are falsy. -/
def truthyS : Option String → Bool
  | none => false
  | some s => s ≠ ""

/-- Embeds `generateId` (app.js lines 107-112): the id source is modelled
as a deterministic supply indexed by a counter; ids are always non-empty. -/
def generateId (pfx : String) (n : Nat) : String :=
  pfx ++ "-" ++ toString n

/-- A client record of the state document.  `id` is absent on
pre-migration (legacy) documents. -/
structure Client where
  id : Option String
  name : Option String
  age : Option String
  weight : Option String
deriving DecidableEq

/-- A progress record or calendar event of the state document.  The two
shapes are open objects treated uniformly by the source via spread and
rest forms; `weight` is the progress payload and `note` the event payload.
`clientIndex` is the legacy positional reference. -/
structure RawRecord where
  clientId : Option String
  clientIndex : Option Int
  date : Option String
  weight : Option String
  note : Option String
deriving DecidableEq

/-- A program: name plus ordered exercise-name list. -/
structure Program where
  name : Option String
  exercises : List String
deriving DecidableEq

/-- An exercise template. -/
structure Exercise where
  name : Option String
  muscle : Option String
deriving DecidableEq

/-- The settings object. -/
structure Settings where
  theme : Option String
  language : Option String
deriving DecidableEq

/-- A state document: the five collections plus (possibly absent) settings. -/
structure RawState where
  clients : List Client
  programs : List Program
  exercises : List Exercise
  progress : List RawRecord
  events : List RawRecord
  settings : Option Settings
deriving DecidableEq

/-- The initial in-memory state literal (app.js lines 11-21). -/
def initState : RawState :=
  { clients := [], programs := [], exercises := [], progress := [], events := [],
    settings := some { theme := some "light", language := some "en" } }

/-- Embeds the clients pass of `migrateState` (app.js lines 116-122):
each client lacking a (truthy) id gets a freshly generated one; the
counter is consumed exactly when `generateId` is called.  The
index-to-id map built during this pass is recovered below as
`clientIds` of the result, since its keys are exactly the positions
`0..length-1` and its values the post-assignment ids. -/
def migrateClients (g : Nat) : List Client → List Client × Nat
  | [] => ([], g)
  | c :: cs =>
    if truthyS c.id then
      let p := migrateClients g cs
      (c :: p.1, p.2)
    else
      let c' := { c with id := some (generateId "client" g) }
      let p := migrateClients (g + 1) cs
      (c' :: p.1, p.2)

/-- The positional view of the `indexToId` map: position `k` maps to the
id of the `k`-th client after the clients pass. -/
def clientIds (cs : List Client) : List (Option String) :=
  cs.map (fun c => c.id)

/-- Embeds `indexToId.get(record.clientIndex)`: a miss (negative or
out-of-range index, or an absent stored id) yields `none` (undefined). -/
def lookupIdx (ids : List (Option String)) (k : Int) : Option String :=
  if k < 0 then none
  else
    match ids.get? k.toNat with
    | some o => o
    | none => none

/-- Embeds the per-record arrow of the `.map` step of `migrateState`
(app.js lines 125-131 and 136-142): if the record has a falsy
`clientId` and a numeric `clientIndex`, resolve the index; a truthy
resolved id produces `{...record, clientId}`, a falsy one produces
`null` (here `none`).  All other records pass through. -/
def migrateRecord (ids : List (Option String)) (r : RawRecord) : Option RawRecord :=
  match truthyS r.clientId, r.clientIndex with
  | false, some k =>
    match lookupIdx ids k with
    | some cid => if cid = "" then none else some { r with clientId := some cid }
    | none => none
  | _, _ => some r

/-- Embeds the final `.map(({ clientIndex, ...rest }) => rest)` step:
the `clientIndex` property is removed from every surviving record. -/
def stripIdx (r : RawRecord) : RawRecord :=
  { r with clientIndex := none }

/-- Embeds the full record pipeline
`.map(f).filter(Boolean).map(({clientIndex, ...rest}) => rest)`
of `migrateState`.  `filterMap id` is `filter(Boolean)`: it drops the
`null`s produced by the map step (structured records are objects,
hence always truthy). -/
def migrateRecords (ids : List (Option String)) (rs : List RawRecord) : List RawRecord :=
  (((rs.map (migrateRecord ids)).filterMap id).map stripIdx)

/-- Embeds `migrateState` (app.js lines 114-145): the clients pass, then
the progress and events pipelines against the index-to-id map.
Programs, exercises and settings are not touched. -/
def migrateState (g : Nat) (s : RawState) : RawState × Nat :=
  let p := migrateClients g s.clients
  let ids := clientIds p.1
  ({ s with
      clients := p.1
      progress := migrateRecords ids s.progress
      events := migrateRecords ids s.events }, p.2)

/-- Embeds the delete-client handler (app.js lines 345-357): remove every
client whose id strictly equals the captured id, and cascade to the
progress and events collections. -/
def deleteClient (s : RawState) (cid : Option String) : RawState :=
  { s with
      clients := s.clients.filter (fun c => decide (c.id ≠ cid))
      progress := s.progress.filter (fun r => decide (r.clientId ≠ cid))
      events := s.events.filter (fun r => decide (r.clientId ≠ cid)) }

/-- Embeds the client form handler (app.js lines 471-484): trim the name,
silently no-op when it is empty, otherwise push a client with a fresh id. -/
def addClient (g : Nat) (s : RawState) (name age weight : String) : RawState × Nat :=
  let n := name.trim
  if n = "" then (s, g)
  else
    ({ s with clients := s.clients ++
        [{ id := some (generateId "client" g), name := some n,
           age := some age, weight := some weight }] }, g + 1)

/-- Embeds the program form handler (app.js lines 486-496): split the
comma-separated exercise list, trim each entry and drop empties. -/
def addProgram (s : RawState) (name exercisesInput : String) : RawState :=
  let n := name.trim
  let exs := ((exercisesInput.splitOn ",").map String.trim).filter (fun e => decide (e ≠ ""))
  if n = "" then s
  else { s with programs := s.programs ++ [{ name := some n, exercises := exs }] }

/-- Embeds the exercise form handler (app.js lines 498-508). -/
def addExercise (s : RawState) (name muscle : String) : RawState :=
  let n := name.trim
  if n = "" then s
  else { s with exercises := s.exercises ++ [{ name := some n, muscle := some muscle.trim }] }

/-- Embeds the progress form handler (app.js lines 510-522): no-op on an
empty client id or date; the pushed record has no `clientIndex`. -/
def addProgressRecord (s : RawState) (clientId date weight : String) : RawState :=
  if clientId = "" then s
  else if date = "" then s
  else { s with progress := s.progress ++
      [{ clientId := some clientId, clientIndex := none,
         date := some date, weight := some weight, note := none }] }

/-- Embeds the calendar form handler (app.js lines 525-537). -/
def addEvent (s : RawState) (clientId date note : String) : RawState :=
  if clientId = "" then s
  else if date = "" then s
  else { s with events := s.events ++
      [{ clientId := some clientId, clientIndex := none,
         date := some date, weight := none, note := some note.trim }] }

/-- Embeds the program delete handler (app.js lines 377-381): positional splice. -/
def deleteProgram (s : RawState) (i : Nat) : RawState :=
  { s with programs := s.programs.eraseIdx i }

/-- Embeds the exercise delete handler (app.js lines 401-405). -/
def deleteExercise (s : RawState) (i : Nat) : RawState :=
  { s with exercises := s.exercises.eraseIdx i }

/-- Embeds the event delete handler (app.js lines 458-462). -/
def deleteEvent (s : RawState) (i : Nat) : RawState :=
  { s with events := s.events.eraseIdx i }

/-- Embeds `exportState`: the backup button serializes the whole store
with `JSON.stringify` (app.js lines 539-547) and a later restore parses
it back with `JSON.parse`; on state documents (no `undefined`-valued
fields, `none` meaning absent) that round trip is the identity, so the
parsed form of the exported store is the store itself. -/
def exportState (s : RawState) : RawState := s

/-- Embeds the restore handler (app.js lines 548-567) at the granularity
of well-shaped state documents.  `input = none` means `JSON.parse`
threw: the store is untouched and the catch branch (the alert, the
Boolean `true` here) runs.  On a parsed document the store is replaced
and migrated; `applyTheme(state.settings.theme)` then throws exactly
when `settings` is absent, which the catch branch also turns into the
alert — but with the store already replaced.  The render stage never
throws on structured documents, whose collections are genuine lists. -/
def replaceState (cur : RawState) (input : Option RawState) (g : Nat) :
    RawState × Nat × Bool :=
  match input with
  | none => (cur, g, true)
  | some raw =>
    let m := migrateState g raw
    match m.1.settings with
    | none => (m.1, m.2, true)
    | some _ => (m.1, m.2, false)

/-- Invariant 2 of the spec for a single record: no legacy `clientIndex`
remains and the `clientId` equals some client's id. -/
def recOK (clients : List Client) (r : RawRecord) : Prop :=
  r.clientIndex = none ∧ ∃ c ∈ clients, r.clientId = c.id

instance (clients : List Client) (r : RawRecord) : Decidable (recOK clients r) := by
  unfold recOK; infer_instance

/-- Referential integrity of the store: invariant 2 for both referencing
collections. -/
def RefIntegrity (s : RawState) : Prop :=
  (∀ r ∈ s.progress, recOK s.clients r) ∧ (∀ r ∈ s.events, recOK s.clients r)

instance (s : RawState) : Decidable (RefIntegrity s) := by
  unfold RefIntegrity; infer_instance

/-- The post-migration invariants of the spec (1, 2 and 4). -/
def GoodState (s : RawState) : Prop :=
  (∀ c ∈ s.clients, truthyS c.id = true) ∧ RefIntegrity s ∧ s.settings.isSome = true

instance (s : RawState) : Decidable (GoodState s) := by
  unfold GoodState; infer_instance

/-- Hypothesis under which migration establishes referential integrity:
every referencing record either already carries a truthy `clientId`
matching some client's truthy id, or carries a falsy `clientId`
together with a numeric `clientIndex`. -/
def migInputOK (s : RawState) : Prop :=
  ∀ r ∈ s.progress ++ s.events,
    (truthyS r.clientId = true ∧ ∃ c ∈ s.clients, truthyS c.id = true ∧ r.clientId = c.id)
    ∨ (truthyS r.clientId = false ∧ r.clientIndex.isSome = true)

instance (s : RawState) : Decidable (migInputOK s) := by
  unfold migInputOK; infer_instance

/-! ## The JSON-value layer

Arbitrary parsed JSON values and the JavaScript evaluation behaviour of
the restore click handler (app.js lines 548-567), including every point
at which the handler can throw into its catch branch. -/

/-- A parsed JSON value, exactly the grammar `JSON.parse` can produce. -/
inductive JVal where
  | jnull
  | jbool (b : Bool)
  | jnum (n : Int)
  | jstr (s : String)
  | jarr (elems : List JVal)
  | jobj (fields : List (String × JVal))

/-- JavaScript truthiness of a JSON value. -/
def jsTruthy : JVal → Bool
  | .jnull => false
  | .jbool b => b
  | .jnum n => n ≠ 0
  | .jstr s => s ≠ ""
  | .jarr _ => true
  | .jobj _ => true

/-- Truthiness of a possibly-`undefined` value. -/
def jsOptTruthy : Option JVal → Bool
  | none => false
  | some v => jsTruthy v

/-- Field lookup in an object's binding list (keys unique, see header). -/
def lookupField : List (String × JVal) → String → Option JVal
  | [], _ => none
  | (k', v) :: rest, k => if k' = k then some v else lookupField rest k

/-- Replace the binding for `k` (keeping its position) or append it. -/
def setField : List (String × JVal) → String → JVal → List (String × JVal)
  | [], k, v => [(k, v)]
  | (k', v') :: rest, k, v =>
    if k' = k then (k, v) :: rest else (k', v') :: setField rest k v

/-- Remove the binding for `k` (rest-destructuring exclusion). -/
def removeField (fs : List (String × JVal)) (k : String) : List (String × JVal) :=
  fs.filter (fun p => decide (p.1 ≠ k))

/-- Property read `v.k`: throws on `null`, yields the field on objects,
and `undefined` on all other values. -/
def jsGet (v : JVal) (k : String) : Except Unit (Option JVal) :=
  match v with
  | .jnull => .error ()
  | .jobj fs => .ok (lookupField fs k)
  | _ => .ok none

/-- Property write `v.k = x` in sloppy mode: mutates objects, silently
no-ops on primitives (and, per the header convention, on arrays). -/
def jsSet (v : JVal) (k : String) (x : JVal) : JVal :=
  match v with
  | .jobj fs => .jobj (setField fs k x)
  | _ => v

/-- Own enumerable properties copied by `{...v}` / rest-destructuring:
objects contribute their fields, arrays and strings their indexed
elements, other primitives nothing. -/
def jsSpread : JVal → List (String × JVal)
  | .jobj fs => fs
  | .jarr xs => xs.enum.map (fun p => (toString p.1, p.2))
  | .jstr s => s.data.enum.map (fun p => (toString p.1, .jstr p.2.toString))
  | _ => []

/-- The strip step `({ clientIndex, ...rest }) => rest` on an arbitrary
value: destructuring `null` throws; every other value yields an object
holding its own enumerable properties minus `clientIndex`. -/
def jsStrip (v : JVal) : Except Unit JVal :=
  match v with
  | .jnull => .error ()
  | _ => .ok (.jobj (removeField (jsSpread v) "clientIndex"))

/-- One client of the clients pass of `migrateState` run on a raw JSON
element: read `id` (throws on `null`), assign a generated id when the
read value is falsy (consuming the supply even when the write is a
no-op on a primitive), then re-read `id` for the `indexToId` entry. -/
def migClientJ (g : Nat) (c : JVal) : Except Unit (JVal × Option JVal × Nat) := do
  let idv ← jsGet c "id"
  if jsOptTruthy idv then
    pure (c, idv, g)
  else
    let c' := jsSet c "id" (.jstr (generateId "client" g))
    let idv' ← jsGet c' "id"
    pure (c', idv', g + 1)

/-- The clients `.map` of `migrateState` over raw JSON elements.  The
callback mutates client objects in place, so when it throws at some
element the already-processed front of the list keeps its mutations while the
failing element and the suffix stay as they were; the Boolean reports
whether the map threw. -/
def migClientsJ (g : Nat) : List JVal → List JVal × List (Option JVal) × Nat × Bool
  | [] => ([], [], g, false)
  | c :: cs =>
    match migClientJ g c with
    | .error _ => (c :: cs, [], g, true)
    | .ok (c', mv, g') =>
      match migClientsJ g' cs with
      | (cs', mvs, g'', threw) => (c' :: cs', mv :: mvs, g'', threw)

/-- `indexToId.get(k)` over the positional value list: a miss yields
`undefined`, a hit yields the stored (possibly `undefined`) value. -/
def idxGetJ (ids : List (Option JVal)) (k : Int) : Option JVal :=
  if k < 0 then none
  else
    match ids.get? k.toNat with
    | some o => o
    | none => none

/-- The per-record arrow of the progress/events `.map` on raw JSON:
reads throw on `null` records; a falsy `clientId` together with a
numeric `clientIndex` resolves through the map, a truthy resolved value
builds `{...record, clientId}` and a falsy one yields `null` (`none`). -/
def migRecordJ (ids : List (Option JVal)) (r : JVal) : Except Unit (Option JVal) := do
  let cid ← jsGet r "clientId"
  let cidx ← jsGet r "clientIndex"
  match jsOptTruthy cid, cidx with
  | false, some (.jnum k) =>
    match idxGetJ ids k with
    | some mv =>
      if jsTruthy mv then pure (some (.jobj (setField (jsSpread r) "clientId" mv)))
      else pure none
    | none => pure none
  | _, _ => pure (some r)

/-- The full record pipeline `.map(f).filter(Boolean).map(strip)` on raw
JSON elements; any throw aborts the whole pipeline before the collection
is reassigned. -/
def migRecordsJ (ids : List (Option JVal)) (rs : List JVal) : Except Unit (List JVal) := do
  let mapped ← rs.mapM (migRecordJ ids)
  let survivors := (mapped.filterMap id).filter jsTruthy
  survivors.mapM jsStrip

/-- The `applyTheme(state.settings.theme)` / `applyLanguage(state.settings.language)`
calls of the restore handler: reading `.theme` throws when `settings` is
absent (`undefined`) or `null`; `applyLanguage` writes the just-read
language back into the settings object (writing a read value back is the
only state effect of the two calls). -/
def applySettingsJ (st : JVal) : Except Unit JVal := do
  let sv ← jsGet st "settings"
  match sv with
  | none => .error ()
  | some s0 => do
    let _theme ← jsGet s0 "theme"
    let langv ← jsGet s0 "language"
    let s1 :=
      match langv with
      | some lv => jsSet s0 "language" lv
      | none => s0
    pure (jsSet st "settings" s1)

/-- Whether `renderPrograms` throws on a program element: `null` breaks
the `program.name` read, and a missing or non-array `exercises`
property breaks `program.exercises.join`. -/
def progElemThrows (p : JVal) : Bool :=
  match p with
  | .jnull => true
  | _ =>
    match jsGet p "exercises" with
    | .ok (some (.jarr _)) => false
    | _ => true

/-- Whether `renderExercises` throws on an element: only the property
reads of a `null` element throw. -/
def exElemThrows (p : JVal) : Bool :=
  match p with
  | .jnull => true
  | _ => false

/-- Whether iterating `v.length` / `v.forEach` over a collection value
throws: arrays iterate, the empty string takes the `length === 0` early
return, and every other value throws (reading `.length` of `undefined`
or `null`, or calling a missing `.forEach`). -/
def renderListThrows (v : Option JVal) (elemThrows : JVal → Bool) : Bool :=
  match v with
  | some (.jarr xs) => xs.any elemThrows
  | some (.jstr s) => decide (s ≠ "")
  | _ => true

/-- Whether `renderAll` throws on the migrated state.  After a completed
migration `clients` is an array of non-`null` elements and `progress` /
`events` are arrays of objects, so only `renderPrograms` and
`renderExercises` can throw; the rebuilt client select holds the empty
default value, so `renderProgressRecords` returns early. -/
def renderThrowsJ (st : JVal) : Bool :=
  match jsGet st "programs", jsGet st "exercises" with
  | .ok pv, .ok ev =>
    renderListThrows pv progElemThrows || renderListThrows ev exElemThrows
  | _, _ => true

/-- Embeds the restore click handler (app.js lines 548-567) on raw JSON.
`input = none` means `JSON.parse` threw before `state = data`, leaving
the store untouched.  Otherwise the store is replaced first and the
migrate/apply/render pipeline runs inside the try; the Boolean is
`true` exactly when the catch branch (the "Invalid backup file" alert)
runs, and the returned state is whatever the store holds at that point
(incomplete mutations included, per the aliasing of `state.clients`). -/
def restoreJ (cur : JVal) (input : Option JVal) (g : Nat) : JVal × Nat × Bool :=
  match input with
  | none => (cur, g, true)
  | some data =>
    match jsGet data "clients" with
    | .error _ => (data, g, true)
    | .ok (some (.jarr cs)) =>
      match migClientsJ g cs with
      | (cs', ids, g', threw) =>
        let st1 := jsSet data "clients" (.jarr cs')
        if threw then (st1, g', true)
        else
          match jsGet st1 "progress" with
          | .error _ => (st1, g', true)
          | .ok (some (.jarr ps)) =>
            (match migRecordsJ ids ps with
             | .error _ => (st1, g', true)
             | .ok ps' =>
               let st2 := jsSet st1 "progress" (.jarr ps')
               match jsGet st2 "events" with
               | .error _ => (st2, g', true)
               | .ok (some (.jarr es)) =>
                 (match migRecordsJ ids es with
                  | .error _ => (st2, g', true)
                  | .ok es' =>
                    let st3 := jsSet st2 "events" (.jarr es')
                    match applySettingsJ st3 with
                    | .error _ => (st3, g', true)
                    | .ok st4 => (st4, g', renderThrowsJ st4))
               | .ok _ => (st2, g', true))
          | .ok _ => (st1, g', true)
    | .ok _ => (data, g, true)

/-! ## Helper lemmas -/

theorem generateId_ne_empty (pfx : String) (n : Nat) : generateId pfx n ≠ "" := by
  intro h
  have hl := congrArg String.length h
  rw [generateId, String.length_append, String.length_append] at hl
  have h1 : ("-" : String).length = 1 := rfl
  have h2 : ("" : String).length = 0 := rfl
  omega

theorem truthyS_generateId (pfx : String) (n : Nat) :
    truthyS (some (generateId pfx n)) = true := by
  simp [truthyS, generateId_ne_empty]

theorem migrateClients_length (g : Nat) (cs : List Client) :
    (migrateClients g cs).1.length = cs.length := by
  induction cs generalizing g with
  | nil => rfl
  | cons c cs ih =>
    by_cases h : truthyS c.id <;> simp [migrateClients, h, ih]

theorem migrateClients_truthy_out (g : Nat) (cs : List Client) :
    ∀ c ∈ (migrateClients g cs).1, truthyS c.id = true := by
  induction cs generalizing g with
  | nil => intro c hc; simp [migrateClients] at hc
  | cons c cs ih =>
    intro d hd
    cases h : truthyS c.id with
    | true =>
      rw [migrateClients, if_pos h] at hd
      rcases List.mem_cons.mp hd with h1 | h1
      · rw [h1]; exact h
      · exact ih g d h1
    | false =>
      rw [migrateClients, if_neg (by rw [h]; simp)] at hd
      rcases List.mem_cons.mp hd with h1 | h1
      · rw [h1]; exact truthyS_generateId "client" g
      · exact ih (g + 1) d h1

theorem migrateClients_of_truthy (g : Nat) (cs : List Client)
    (h : ∀ c ∈ cs, truthyS c.id = true) : migrateClients g cs = (cs, g) := by
  induction cs generalizing g with
  | nil => rfl
  | cons c cs ih =>
    have hc : truthyS c.id = true := h c (by simp)
    have hcs : ∀ d ∈ cs, truthyS d.id = true := fun d hd => h d (by simp [hd])
    simp [migrateClients, hc, ih g hcs]

theorem migrateClients_mem_of_truthy (g : Nat) (cs : List Client) (c : Client)
    (hc : c ∈ cs) (ht : truthyS c.id = true) : c ∈ (migrateClients g cs).1 := by
  induction cs generalizing g with
  | nil => simp at hc
  | cons d ds ih =>
    rcases List.mem_cons.mp hc with h | h
    · subst h
      simp [migrateClients, ht]
    · by_cases hd : truthyS d.id <;>
        simp [migrateClients, hd, ih _ h]

theorem migrateClients_allFalsy_get (g k : Nat) (cs : List Client) (ck : Client)
    (hfal : ∀ c ∈ cs, truthyS c.id = false) (hk : cs.get? k = some ck) :
    (migrateClients g cs).1.get? k =
      some { ck with id := some (generateId "client" (g + k)) } := by
  induction cs generalizing g k with
  | nil => simp at hk
  | cons c cs ih =>
    have hc : truthyS c.id = false := hfal c (by simp)
    cases k with
    | zero =>
      simp only [List.get?] at hk
      cases hk
      simp [migrateClients, hc]
    | succ n =>
      simp only [List.get?] at hk
      have hfal' : ∀ c ∈ cs, truthyS c.id = false := fun d hd => hfal d (by simp [hd])
      have := ih (g + 1) n hfal' hk
      simp only [migrateClients, hc, Bool.false_eq_true, if_false, List.get?]
      rw [this]
      have harith : g + 1 + n = g + (n + 1) := by omega
      rw [harith]

theorem migrateRecords_append (ids : List (Option String)) (xs ys : List RawRecord) :
    migrateRecords ids (xs ++ ys) = migrateRecords ids xs ++ migrateRecords ids ys := by
  simp [migrateRecords, List.map_append, List.filterMap_append]

theorem migrateRecords_cons_none (ids : List (Option String)) (r : RawRecord)
    (rs : List RawRecord) (h : migrateRecord ids r = none) :
    migrateRecords ids (r :: rs) = migrateRecords ids rs := by
  simp [migrateRecords, h]

theorem migrateRecords_cons_some (ids : List (Option String)) (r r' : RawRecord)
    (rs : List RawRecord) (h : migrateRecord ids r = some r') :
    migrateRecords ids (r :: rs) = stripIdx r' :: migrateRecords ids rs := by
  simp [migrateRecords, h]

theorem migrateRecords_noIdx_out (ids : List (Option String)) (rs : List RawRecord) :
    ∀ r ∈ migrateRecords ids rs, r.clientIndex = none := by
  intro r hr
  simp only [migrateRecords, List.mem_map] at hr
  rcases hr with ⟨r', _, hr'⟩
  rw [← hr']
  rfl

theorem migrateRecord_of_noIdx (ids : List (Option String)) (r : RawRecord)
    (h : r.clientIndex = none) : migrateRecord ids r = some r := by
  cases ht : truthyS r.clientId <;> simp [migrateRecord, h, ht]

theorem stripIdx_of_noIdx (r : RawRecord) (h : r.clientIndex = none) :
    stripIdx r = r := by
  cases r
  simp [stripIdx] at h ⊢
  exact h.symm

theorem migrateRecords_of_noIdx (ids : List (Option String)) (rs : List RawRecord)
    (h : ∀ r ∈ rs, r.clientIndex = none) : migrateRecords ids rs = rs := by
  induction rs with
  | nil => rfl
  | cons r rs ih =>
    have hr : r.clientIndex = none := h r (by simp)
    have hrs := ih (fun d hd => h d (by simp [hd]))
    rw [migrateRecords_cons_some ids r r rs (migrateRecord_of_noIdx ids r hr),
        stripIdx_of_noIdx r hr, hrs]

theorem migrateState_identity (g : Nat) (s : RawState)
    (hc : ∀ c ∈ s.clients, truthyS c.id = true)
    (hp : ∀ r ∈ s.progress, r.clientIndex = none)
    (he : ∀ r ∈ s.events, r.clientIndex = none) :
    migrateState g s = (s, g) := by
  obtain ⟨cl, pr, ex, pg, ev, st⟩ := s
  simp only [migrateState, migrateClients_of_truthy g cl hc,
    migrateRecords_of_noIdx _ _ hp, migrateRecords_of_noIdx _ _ he]

theorem clientIds_get? (cs : List Client) (k : Nat) :
    (clientIds cs).get? k = (cs.get? k).map (fun c => c.id) := by
  simp [clientIds, List.get?_map]

theorem migRecords_integrity (g : Nat) (s : RawState) (rs : List RawRecord)
    (hin : ∀ r ∈ rs,
      (truthyS r.clientId = true ∧ ∃ c ∈ s.clients, truthyS c.id = true ∧ r.clientId = c.id)
      ∨ (truthyS r.clientId = false ∧ r.clientIndex.isSome = true)) :
    ∀ r ∈ migrateRecords (clientIds (migrateClients g s.clients).1) rs,
      recOK (migrateClients g s.clients).1 r := by
  intro r hr
  rcases List.mem_map.mp hr with ⟨r', hr', hstrip⟩
  rcases List.mem_filterMap.mp hr' with ⟨o, ho, hid⟩
  rcases List.mem_map.mp ho with ⟨r₀, hr₀,ho'⟩
  have hm : migrateRecord (clientIds (migrateClients g s.clients).1) r₀ = some r' := by
    rw [ho']; exact hid
  rcases hin r₀ hr₀ with ⟨ht, c, hc, htc, heq⟩ | ⟨hf, hsome⟩
  · have hpass : migrateRecord (clientIds (migrateClients g s.clients).1) r₀ = some r₀ := by
      unfold migrateRecord; rw [ht]
    rw [hpass] at hm
    cases hm
    refine ⟨by rw [← hstrip]; rfl, c,
      migrateClients_mem_of_truthy g s.clients c hc htc, ?_⟩
    rw [← hstrip]
    exact heq
  · obtain ⟨k, hk⟩ := Option.isSome_iff_exists.mp hsome
    cases hlook : lookupIdx (clientIds (migrateClients g s.clients).1) k with
    | none =>
      have hnone : migrateRecord (clientIds (migrateClients g s.clients).1) r₀ = none := by
        simp only [migrateRecord, hf, hk, hlook]
      rw [hnone] at hm
      cases hm
    | some cid =>
      by_cases hcid : cid = ""
      · have hnone : migrateRecord (clientIds (migrateClients g s.clients).1) r₀ = none := by
          simp only [migrateRecord, hf, hk, hlook, if_pos hcid]
        rw [hnone] at hm
        cases hm
      · have hsome' : migrateRecord (clientIds (migrateClients g s.clients).1) r₀ =
            some { r₀ with clientId := some cid } := by
          simp only [migrateRecord, hf, hk, hlook, if_neg hcid]
        rw [hsome'] at hm
        cases hm
        refine ⟨by rw [← hstrip]; rfl, ?_⟩
        unfold lookupIdx at hlook
        by_cases hkneg : k < 0
        · rw [if_pos hkneg] at hlook; cases hlook
        · rw [if_neg hkneg] at hlook
          cases hget : (clientIds (migrateClients g s.clients).1).get? k.toNat with
          | none => rw [hget] at hlook; cases hlook
          | some o' =>
            rw [hget] at hlook
            rw [clientIds_get?] at hget
            cases hcs : (migrateClients g s.clients).1.get? k.toNat with
            | none => rw [hcs] at hget; cases hget
            | some c' =>
              rw [hcs] at hget
              refine ⟨c', List.get?_mem hcs, ?_⟩
              rw [← hstrip]
              show (some cid : Option String) = c'.id
              have : o' = c'.id := by
                have := hget
                simp only [Option.map_some'] at this
                cases this
                rfl
              rw [← this, ← hlook]

/-! ## Concrete states used by witnesses and counterexamples -/

/-- A client with a stable id, used by the C3 witness. -/
def cexClient : Client :=
  { id := some "c1", name := some "Amin", age := some "30", weight := some "80" }

/-- A two-client store with records referencing both clients (C3 witness). -/
def cascadeState : RawState :=
  { initState with
      clients := [cexClient,
        { id := some "c2", name := some "Sara", age := none, weight := none }]
      progress := [{ clientId := some "c1", clientIndex := none,
                     date := some "2024-01-01", weight := some "80", note := none },
                   { clientId := some "c2", clientIndex := none,
                     date := some "2024-01-02", weight := some "60", note := none }]
      events := [{ clientId := some "c1", clientIndex := none,
                   date := some "2024-02-01", weight := none, note := some "session" }] }

/-- A record carrying both a `clientId` and a `clientIndex` (C7). -/
def bothFieldsRec : RawRecord :=
  { clientId := some "a", clientIndex := some 0, date := some "2024-01-01",
    weight := some "70", note := none }

/-- A store whose only progress record carries both reference fields (C7). -/
def bothFieldsState : RawState := { initState with progress := [bothFieldsRec] }

/-- A record already carrying a `clientId` and no `clientIndex` (C7 witness). -/
def passRec : RawRecord :=
  { clientId := some "keep", clientIndex := some 2, date := some "2024-03-01",
    weight := some "71", note := none }

/-- Store for the C7 witness. -/
def passState : RawState := { initState with progress := [passRec], events := [passRec] }

/-- A state document with the settings object missing (C8). -/
def noSettingsState : RawState := { initState with settings := none }

/-- The second of the two id-less legacy clients of the spec's example
(C5 witness). -/
def legacyB : Client := { id := none, name := some "B", age := none, weight := none }

/-- The spec's legacy progress record `{clientIndex: 1, date, weight}` (C5). -/
def legacyRec : RawRecord :=
  { clientId := none, clientIndex := some 1, date := some "2024-01-01",
    weight := some "70", note := none }

/-- The spec's pre-migration example: clients `[A, B]` without ids and one
positional progress record (C5 witness). -/
def legacyState : RawState :=
  { initState with
      clients := [{ id := none, name := some "A", age := none, weight := none }, legacyB]
      progress := [legacyRec] }

/-- The spec's dangling record `{clientIndex: 5, date}` (C6 witness). -/
def danglingRec : RawRecord :=
  { clientId := none, clientIndex := some 5, date := some "2024-01-01",
    weight := none, note := none }

/-- A two-client list with one dangling positional record (C6 witness). -/
def danglingState : RawState :=
  { initState with
      clients := [{ id := none, name := some "A", age := none, weight := none },
                  { id := none, name := some "B", age := none, weight := none }]
      progress := [danglingRec]
      events := [danglingRec] }

/-- A legacy record carrying neither `clientId` nor `clientIndex` (C4). -/
def orphanRec : RawRecord :=
  { clientId := none, clientIndex := none, date := some "2024-01-01",
    weight := none, note := none }

/-- A state document whose only progress record is the orphan (C4). -/
def orphanState : RawState := { initState with progress := [orphanRec] }

/-- A one-client store used by the C4 witness. -/
def oneClientState : RawState :=
  { initState with
      clients := [{ id := some "c1", name := some "Amin", age := none, weight := none }] }

/-- A pre-migration document satisfying the C4 input hypothesis (witness). -/
def resolvableState : RawState :=
  { initState with
      clients := [{ id := none, name := some "A", age := none, weight := none }]
      progress := [{ clientId := none, clientIndex := some 0,
                     date := some "2024-01-01", weight := some "70", note := none }] }

/-- A populated in-memory store in raw JSON form: what the store holds
just before a restore attempt (C1). -/
def priorStore : JVal :=
  .jobj [("clients", .jarr [.jobj [("id", .jstr "c1"), ("name", .jstr "Amin")]]),
         ("programs", .jarr []),
         ("exercises", .jarr []),
         ("progress", .jarr [.jobj [("clientId", .jstr "c1"), ("date", .jstr "2024-01-01")]]),
         ("events", .jarr []),
         ("settings", .jobj [("theme", .jstr "light"), ("language", .jstr "en")])]

/-- A store satisfying every post-migration invariant, with a program
whose exercise order matters (C9 witness). -/
def roundTripState : RawState :=
  { clients := [{ id := some "c1", name := some "Amin", age := some "30", weight := some "80" }],
    programs := [{ name := some "Strength", exercises := ["squat", "row", "press"] }],
    exercises := [{ name := some "squat", muscle := some "legs" }],
    progress := [{ clientId := some "c1", clientIndex := none,
                   date := some "2024-01-01", weight := some "80", note := none }],
    events := [{ clientId := some "c1", clientIndex := none,
                 date := some "2024-02-01", weight := none, note := some "session" }],
    settings := some { theme := some "dark", language := some "fa" } }

/-! ## Claim theorems -/

/-- Claim C2: the Migration Engine is idempotent — for every raw state,
running `migrateState` twice yields a result identical to running it
once (the second run also consumes no fresh ids). -/
theorem migrateState_idem (g g' : Nat) (s : RawState) :
    migrateState g' (migrateState g s).1 = ((migrateState g s).1, g') := by
  apply migrateState_identity
  · intro c hc
    exact migrateClients_truthy_out g s.clients c hc
  · intro r hr
    exact migrateRecords_noIdx_out _ _ r hr
  · intro r hr
    exact migrateRecords_noIdx_out _ _ r hr

/-- Claim C3: cascade delete — for every store state and every client `C`
in it, after `deleteClient C.id` the client `C` is gone from the client
sequence and no remaining progress record or calendar event references
`C.id`. -/
theorem deleteClient_cascade (s : RawState) (C : Client) (hC : C ∈ s.clients) :
    C ∉ (deleteClient s C.id).clients ∧
    (∀ r ∈ (deleteClient s C.id).progress, r.clientId ≠ C.id) ∧
    (∀ r ∈ (deleteClient s C.id).events, r.clientId ≠ C.id) := by
  refine ⟨?_, ?_, ?_⟩
  · intro hmem
    have h2 := (List.mem_filter.mp hmem).2
    simp at h2
  · intro r hr
    exact of_decide_eq_true (List.mem_filter.mp hr).2
  · intro r hr
    exact of_decide_eq_true (List.mem_filter.mp hr).2

/-- Witness for C3 at a concrete two-client store. -/
theorem deleteClient_cascade_witness :
    cexClient ∈ cascadeState.clients ∧
    (cexClient ∉ (deleteClient cascadeState cexClient.id).clients ∧
     (∀ r ∈ (deleteClient cascadeState cexClient.id).progress, r.clientId ≠ cexClient.id) ∧
     (∀ r ∈ (deleteClient cascadeState cexClient.id).events, r.clientId ≠ cexClient.id)) :=
  ⟨by decide, deleteClient_cascade cascadeState cexClient (by decide)⟩

/-- Claim C10: frame property of client deletion — `deleteClient` leaves
the programs collection, the exercises collection and the settings
object exactly unchanged. -/
theorem deleteClient_frame (s : RawState) (cid : Option String) :
    (deleteClient s cid).programs = s.programs ∧
    (deleteClient s cid).exercises = s.exercises ∧
    (deleteClient s cid).settings = s.settings :=
  ⟨rfl, rfl, rfl⟩

/-- Claim C7 counterexample: a record carrying both a `clientId` and a
`clientIndex` does NOT pass through migration unchanged — the final
strip step removes its `clientIndex` field. -/
theorem clientId_passthrough_cex :
    (migrateState 0 bothFieldsState).1.progress = [stripIdx bothFieldsRec] ∧
    stripIdx bothFieldsRec ≠ bothFieldsRec := by decide

/-- Claim C7 (amended): a record already carrying a truthy `clientId`
passes through migration with only its `clientIndex` field removed; in
particular a record with a `clientId` and no `clientIndex` passes
through unchanged. -/
theorem clientId_passthrough_amended (g : Nat) (s : RawState) (r : RawRecord)
    (h : truthyS r.clientId = true) :
    (∀ xs ys, s.progress = xs ++ r :: ys →
      (migrateState g s).1.progress =
        migrateRecords (clientIds (migrateClients g s.clients).1) xs ++
          { r with clientIndex := none } ::
            migrateRecords (clientIds (migrateClients g s.clients).1) ys) ∧
    (∀ xs ys, s.events = xs ++ r :: ys →
      (migrateState g s).1.events =
        migrateRecords (clientIds (migrateClients g s.clients).1) xs ++
          { r with clientIndex := none } ::
            migrateRecords (clientIds (migrateClients g s.clients).1) ys) ∧
    (r.clientIndex = none → ({ r with clientIndex := none } : RawRecord) = r) := by
  have hr : ∀ ids, migrateRecord ids r = some r := by
    intro ids
    unfold migrateRecord
    rw [h]
  refine ⟨?_, ?_, ?_⟩
  · intro xs ys hxy
    show migrateRecords (clientIds (migrateClients g s.clients).1) s.progress = _
    rw [hxy, migrateRecords_append, migrateRecords_cons_some _ r r _ (hr _)]
    rfl
  · intro xs ys hxy
    show migrateRecords (clientIds (migrateClients g s.clients).1) s.events = _
    rw [hxy, migrateRecords_append, migrateRecords_cons_some _ r r _ (hr _)]
    rfl
  · intro hidx
    exact stripIdx_of_noIdx r hidx

/-- Witness for the amended C7 at a concrete store. -/
theorem clientId_passthrough_amended_witness :
    truthyS passRec.clientId = true ∧
    (migrateState 0 passState).1.progress =
      migrateRecords (clientIds (migrateClients 0 passState.clients).1) [] ++
        { passRec with clientIndex := none } ::
          migrateRecords (clientIds (migrateClients 0 passState.clients).1) [] :=
  ⟨by decide, (clientId_passthrough_amended 0 passState passRec (by decide)).1 [] [] rfl⟩

/-- Claim C8 counterexample: migration does not substitute default
settings — a state document whose settings object is missing still has
no settings after `migrateState`. -/
theorem migrate_no_settings_default :
    (migrateState 0 noSettingsState).1.settings = none ∧
    (migrateState 0 noSettingsState).1.settings ≠
      some { theme := some "light", language := some "en" } := by decide

/-- Claim C8 (amended): the Migration Engine leaves the settings object
exactly as it finds it (missing stays missing); the default settings
are present only in the initial in-memory state literal used when no
stored state exists. -/
theorem migrate_settings_frame :
    (∀ g s, (migrateState g s).1.settings = s.settings) ∧
    initState.settings = some { theme := some "light", language := some "en" } :=
  ⟨fun _ _ => rfl, rfl⟩

/-- Claim C5: legacy reference resolution — in a pre-migration state whose
clients all lack (truthy) ids, a record with no `clientId` and a numeric
`clientIndex` denoting a valid position `k` is migrated to a record
whose `clientId` is the freshly generated id of the client at position
`k`, with the `clientIndex` field removed. -/
theorem legacy_index_resolution (g : Nat) (s : RawState) (k : Nat) (ck : Client)
    (r : RawRecord)
    (hids : ∀ c ∈ s.clients, truthyS c.id = false)
    (hk : s.clients.get? k = some ck)
    (hcid : truthyS r.clientId = false)
    (hidx : r.clientIndex = some (k : Int)) :
    (migrateState g s).1.clients.get? k =
      some { ck with id := some (generateId "client" (g + k)) } ∧
    (∀ xs ys, s.progress = xs ++ r :: ys →
      (migrateState g s).1.progress =
        migrateRecords (clientIds (migrateClients g s.clients).1) xs ++
          { r with clientId := some (generateId "client" (g + k)), clientIndex := none } ::
            migrateRecords (clientIds (migrateClients g s.clients).1) ys) ∧
    (∀ xs ys, s.events = xs ++ r :: ys →
      (migrateState g s).1.events =
        migrateRecords (clientIds (migrateClients g s.clients).1) xs ++
          { r with clientId := some (generateId "client" (g + k)), clientIndex := none } ::
            migrateRecords (clientIds (migrateClients g s.clients).1) ys) := by
  have hget := migrateClients_allFalsy_get g k s.clients ck hids hk
  have hlook : lookupIdx (clientIds (migrateClients g s.clients).1) (k : Int) =
      some (generateId "client" (g + k)) := by
    unfold lookupIdx
    rw [if_neg (by omega)]
    have htn : ((k : Int)).toNat = k := rfl
    rw [htn, clientIds_get?, hget]
    rfl
  have hne := generateId_ne_empty "client" (g + k)
  have hrec : migrateRecord (clientIds (migrateClients g s.clients).1) r =
      some { r with clientId := some (generateId "client" (g + k)) } := by
    simp only [migrateRecord, hcid, hidx, hlook, if_neg hne]
  refine ⟨hget, ?_, ?_⟩
  · intro xs ys hxy
    show migrateRecords (clientIds (migrateClients g s.clients).1) s.progress = _
    rw [hxy, migrateRecords_append, migrateRecords_cons_some _ r _ _ hrec]
    rfl
  · intro xs ys hxy
    show migrateRecords (clientIds (migrateClients g s.clients).1) s.events = _
    rw [hxy, migrateRecords_append, migrateRecords_cons_some _ r _ _ hrec]
    rfl

/-- Witness for C5 at the spec's example: clients `[A, B]` without ids and
the record `{clientIndex: 1, date: "2024-01-01", weight: "70"}`. -/
theorem legacy_index_resolution_witness :
    (migrateState 0 legacyState).1.clients.get? 1 =
      some { legacyB with id := some (generateId "client" (0 + 1)) } ∧
    (migrateState 0 legacyState).1.progress =
      migrateRecords (clientIds (migrateClients 0 legacyState.clients).1) [] ++
        { legacyRec with
            clientId := some (generateId "client" (0 + 1)),
            clientIndex := none } ::
          migrateRecords (clientIds (migrateClients 0 legacyState.clients).1) [] :=
  ⟨(legacy_index_resolution 0 legacyState 1 legacyB legacyRec (by decide) (by decide)
      (by decide) rfl).1,
   (legacy_index_resolution 0 legacyState 1 legacyB legacyRec (by decide) (by decide)
      (by decide) rfl).2.1 [] [] rfl⟩

/-- Claim C6: dangling legacy references are dropped — a record with no
(truthy) `clientId` and a numeric `clientIndex` outside the positions of
the client sequence contributes nothing to the migrated collection:
migrating with the record present equals migrating with it removed. -/
theorem dangling_index_dropped (g : Nat) (s : RawState) (r : RawRecord) (k : Int)
    (hcid : truthyS r.clientId = false) (hidx : r.clientIndex = some k)
    (hout : k < 0 ∨ (s.clients.length : Int) ≤ k) :
    (∀ xs ys, s.progress = xs ++ r :: ys →
      (migrateState g s).1.progress =
        (migrateState g { s with progress := xs ++ ys }).1.progress) ∧
    (∀ xs ys, s.events = xs ++ r :: ys →
      (migrateState g s).1.events =
        (migrateState g { s with events := xs ++ ys }).1.events) := by
  have hlen : (clientIds (migrateClients g s.clients).1).length = s.clients.length := by
    simp [clientIds, migrateClients_length]
  have hlook : lookupIdx (clientIds (migrateClients g s.clients).1) k = none := by
    unfold lookupIdx
    rcases hout with hneg | hge
    · rw [if_pos hneg]
    · rw [if_neg (by omega)]
      have hnone : (clientIds (migrateClients g s.clients).1).get? k.toNat = none := by
        apply List.get?_eq_none.mpr
        rw [hlen]
        omega
      rw [hnone]
  have hrec : migrateRecord (clientIds (migrateClients g s.clients).1) r = none := by
    simp only [migrateRecord, hcid, hidx, hlook]
  constructor
  · intro xs ys hxy
    show migrateRecords (clientIds (migrateClients g s.clients).1) s.progress =
      migrateRecords (clientIds (migrateClients g s.clients).1) (xs ++ ys)
    rw [hxy, migrateRecords_append, migrateRecords_cons_none _ r _ hrec,
      migrateRecords_append]
  · intro xs ys hxy
    show migrateRecords (clientIds (migrateClients g s.clients).1) s.events =
      migrateRecords (clientIds (migrateClients g s.clients).1) (xs ++ ys)
    rw [hxy, migrateRecords_append, migrateRecords_cons_none _ r _ hrec,
      migrateRecords_append]

/-- Witness for C6 at the spec's example: `{clientIndex: 5}` against a
two-client list is removed by migration. -/
theorem dangling_index_dropped_witness :
    (migrateState 0 danglingState).1.progress =
      (migrateState 0 { danglingState with progress := [] ++ [] }).1.progress :=
  (dangling_index_dropped 0 danglingState danglingRec 5 (by decide) rfl
    (Or.inr (by decide))).1 [] [] rfl

/-- Claim C9: export/import round trip — for every store satisfying the
post-migration invariants, `replaceState (exportState s)` succeeds (no
parse-failure alert) and leaves the store, including client ids and
program exercise order, exactly as it was. -/
theorem export_import_roundTrip (s : RawState) (g : Nat) (h : GoodState s) :
    replaceState s (some (exportState s)) g = (s, g, false) := by
  obtain ⟨hc, ⟨hp, he⟩, hs⟩ := h
  have hm : migrateState g s = (s, g) :=
    migrateState_identity g s hc (fun r hr => (hp r hr).1) (fun r hr => (he r hr).1)
  cases hset : s.settings with
  | none => rw [hset] at hs; simp at hs
  | some v => simp only [replaceState, exportState, hm, hset]

theorem addClient_records_frame (g : Nat) (s : RawState) (n a w : String) :
    (addClient g s n a w).1.progress = s.progress ∧
    (addClient g s n a w).1.events = s.events := by
  unfold addClient
  by_cases hn : n.trim = "" <;> simp [hn]

theorem addClient_mem_clients (g : Nat) (s : RawState) (n a w : String) (c : Client)
    (hc : c ∈ s.clients) : c ∈ (addClient g s n a w).1.clients := by
  unfold addClient
  by_cases hn : n.trim = "" <;> simp [hn, hc]

theorem addProgram_frame (s : RawState) (n exs : String) :
    (addProgram s n exs).clients = s.clients ∧
    (addProgram s n exs).progress = s.progress ∧
    (addProgram s n exs).events = s.events := by
  unfold addProgram
  by_cases hn : n.trim = "" <;> simp [hn]

theorem addExercise_frame (s : RawState) (n m : String) :
    (addExercise s n m).clients = s.clients ∧
    (addExercise s n m).progress = s.progress ∧
    (addExercise s n m).events = s.events := by
  unfold addExercise
  by_cases hn : n.trim = "" <;> simp [hn]

/-- Claim C4 counterexample: migration does not establish referential
integrity unconditionally — a record carrying neither `clientId` nor
`clientIndex` passes through migration and references no client. -/
theorem referential_integrity_cex :
    ¬ RefIntegrity (migrateState 0 orphanState).1 := by decide

/-- Claim C4 (amended): after migration no record carries a
`clientIndex`; provided every pre-migration record either carries a
truthy `clientId` matching some client's truthy id or a falsy
`clientId` with a numeric `clientIndex`, migration establishes
referential integrity; and each mutation operation preserves
referential integrity, where `addProgressRecord` and `addEvent`
preserve it only when called with the id of an existing client. -/
theorem referential_integrity_amended :
    (∀ g s, ∀ r ∈ (migrateState g s).1.progress, r.clientIndex = none) ∧
    (∀ g s, ∀ r ∈ (migrateState g s).1.events, r.clientIndex = none) ∧
    (∀ g s, migInputOK s → RefIntegrity (migrateState g s).1) ∧
    (∀ s cid d w, RefIntegrity s → (∃ c ∈ s.clients, c.id = some cid) →
      RefIntegrity (addProgressRecord s cid d w)) ∧
    (∀ s cid d n, RefIntegrity s → (∃ c ∈ s.clients, c.id = some cid) →
      RefIntegrity (addEvent s cid d n)) ∧
    (∀ s cid, RefIntegrity s → RefIntegrity (deleteClient s cid)) ∧
    (∀ g s n a w, RefIntegrity s → RefIntegrity (addClient g s n a w).1) ∧
    (∀ s n exs, RefIntegrity s → RefIntegrity (addProgram s n exs)) ∧
    (∀ s n m, RefIntegrity s → RefIntegrity (addExercise s n m)) ∧
    (∀ s i, RefIntegrity s → RefIntegrity (deleteProgram s i)) ∧
    (∀ s i, RefIntegrity s → RefIntegrity (deleteExercise s i)) ∧
    (∀ s i, RefIntegrity s → RefIntegrity (deleteEvent s i)) := by
  refine ⟨?_, ?_, ?_, ?_, ?_, ?_, ?_, ?_, ?_, ?_, ?_, ?_⟩
  · intro g s r hr
    exact migrateRecords_noIdx_out _ _ r hr
  · intro g s r hr
    exact migrateRecords_noIdx_out _ _ r hr
  · intro g s h
    constructor
    · exact migRecords_integrity g s s.progress
        (fun r hr => h r (List.mem_append_left _ hr))
    · exact migRecords_integrity g s s.events
        (fun r hr => h r (List.mem_append_right _ hr))
  · intro s cid d w h hex
    unfold addProgressRecord
    split
    · exact h
    · split
      · exact h
      · refine ⟨fun r hr => ?_, h.2⟩
        rcases List.mem_append.mp hr with h1 | h1
        · exact h.1 r h1
        · obtain ⟨c, hc, hcid⟩ := hex
          rcases List.mem_singleton.mp h1 with rfl
          exact ⟨rfl, c, hc, hcid.symm⟩
  · intro s cid d n h hex
    unfold addEvent
    split
    · exact h
    · split
      · exact h
      · refine ⟨h.1, fun r hr => ?_⟩
        rcases List.mem_append.mp hr with h1 | h1
        · exact h.2 r h1
        · obtain ⟨c, hc, hcid⟩ := hex
          rcases List.mem_singleton.mp h1 with rfl
          exact ⟨rfl, c, hc, hcid.symm⟩
  · intro s cid h
    constructor
    · intro r hr
      have hr' := List.mem_filter.mp hr
      obtain ⟨hidx0, c, hc, heq⟩ := h.1 r hr'.1
      refine ⟨hidx0, c, List.mem_filter.mpr ⟨hc, ?_⟩, heq⟩
      have hne := of_decide_eq_true hr'.2
      exact decide_eq_true (fun hcc => hne (by rw [heq, hcc]))
    · intro r hr
      have hr' := List.mem_filter.mp hr
      obtain ⟨hidx0, c, hc, heq⟩ := h.2 r hr'.1
      refine ⟨hidx0, c, List.mem_filter.mpr ⟨hc, ?_⟩, heq⟩
      have hne := of_decide_eq_true hr'.2
      exact decide_eq_true (fun hcc => hne (by rw [heq, hcc]))
  · intro g s n a w h
    constructor
    · intro r hr
      rw [(addClient_records_frame g s n a w).1] at hr
      obtain ⟨hidx0, c, hc, heq⟩ := h.1 r hr
      exact ⟨hidx0, c, addClient_mem_clients g s n a w c hc, heq⟩
    · intro r hr
      rw [(addClient_records_frame g s n a w).2] at hr
      obtain ⟨hidx0, c, hc, heq⟩ := h.2 r hr
      exact ⟨hidx0, c, addClient_mem_clients g s n a w c hc, heq⟩
  · intro s n exs h
    obtain ⟨f1, f2, f3⟩ := addProgram_frame s n exs
    constructor
    · intro r hr
      rw [f2] at hr
      rw [f1]
      exact h.1 r hr
    · intro r hr
      rw [f3] at hr
      rw [f1]
      exact h.2 r hr
  · intro s n m h
    obtain ⟨f1, f2, f3⟩ := addExercise_frame s n m
    constructor
    · intro r hr
      rw [f2] at hr
      rw [f1]
      exact h.1 r hr
    · intro r hr
      rw [f3] at hr
      rw [f1]
      exact h.2 r hr
  · intro s i h
    exact h
  · intro s i h
    exact h
  · intro s i h
    refine ⟨h.1, fun r hr => h.2 r ?_⟩
    exact List.Sublist.mem hr (List.eraseIdx_sublist s.events i)

/-- Witness for the amended C4: migration of a resolvable legacy document
establishes referential integrity, and adding a progress record for an
existing client preserves it. -/
theorem referential_integrity_amended_witness :
    RefIntegrity (migrateState 0 resolvableState).1 ∧
    RefIntegrity (addProgressRecord oneClientState "c1" "2024-01-01" "70") :=
  ⟨referential_integrity_amended.2.2.1 0 resolvableState (by decide),
   referential_integrity_amended.2.2.2.1 oneClientState "c1" "2024-01-01" "70"
     (by decide) (by decide)⟩

/-- Witness for C9 at a concrete invariant-satisfying store. -/
theorem export_import_roundTrip_witness :
    GoodState roundTripState ∧
    replaceState roundTripState (some (exportState roundTripState)) 3 =
      (roundTripState, 3, false) :=
  ⟨by decide, export_import_roundTrip roundTripState 3 (by decide)⟩

/-- Claim C1 counterexample: restoring the well-formed JSON document `{}`
(a malformed state document: no collections) raises the restore parse
failure, yet the in-memory store is left holding `{}` — not its
previous contents: `state = data` runs before `migrateState()` throws
on the missing `clients` array. -/
theorem restore_malformed_clobbers_store :
    (restoreJ priorStore (some (.jobj [])) 5).2.2 = true ∧
    (restoreJ priorStore (some (.jobj [])) 5).1 = .jobj [] ∧
    (restoreJ priorStore (some (.jobj [])) 5).1 ≠ priorStore := by
  refine ⟨rfl, rfl, ?_⟩
  intro h
  rw [show (restoreJ priorStore (some (.jobj [])) 5).1 = JVal.jobj [] from rfl] at h
  simp [priorStore] at h

/-- Claim C1 (amended): `replaceState` fails with the restore parse
failure and leaves the store byte-for-byte untouched exactly when the
serialized input is un-parseable; when the input parses, the resulting
store and failure flag depend only on the parsed document and never on
the previous store contents — so a malformed structural shape raises
the failure alert but leaves the store holding the (possibly
half-migrated) replacement. -/
theorem restore_failure_behavior :
    (∀ (cur : JVal) (g : Nat), restoreJ cur none g = (cur, g, true)) ∧
    (∀ (cur₁ cur₂ v : JVal) (g : Nat),
      restoreJ cur₁ (some v) g = restoreJ cur₂ (some v) g) :=
  ⟨fun _ _ => rfl, fun _ _ _ _ => rfl⟩
